import Mathlib

/-!
Verification of the client-side request / re-authentication coordination layer
taught by the md-musicfun tutorial repository.

The development shallowly embeds the TypeScript sources:
  * a JSON value model with JavaScript truthiness, property access and
    string coercion semantics (property access on null throws, which is
    modelled with Except);
  * the error-display code (handleErrors, isErrorWithProperty,
    isErrorWithDetailArray, trimToMaxLength, errorToast);
  * the authenticated base query (prepareHeaders, isTokens,
    baseQueryWithReauth) both as a sequential function for a single caller
    and as a small-step interleaving model for N concurrent callers sharing
    the async-mutex;
  * the logout mutation side effects (onQueryStarted);
  * the optimistic-update flow of updatePlaylist.onQueryStarted over a
    cache ledger whose patch and undo operations are modelled from the
    specification (they live in the external data-fetching library).
-/

/-- Model of a JSON value, as produced by parsing an HTTP response body.
Numbers are modelled as integers; object fields keep their textual keys. -/
inductive JVal where
  | null : JVal
  | bool : Bool → JVal
  | num : Int → JVal
  | str : String → JVal
  | arr : List JVal → JVal
  | obj : List (String × JVal) → JVal

namespace JVal

/-- JavaScript truthiness of a JSON value: null, false, 0 and the empty
string are falsy; every array and object is truthy. -/
def jsTruthy : JVal → Bool
  | .null => false
  | .bool b => b
  | .num n => n != 0
  | .str s => s != ""
  | .arr _ => true
  | .obj _ => true

/-- Result of the JavaScript expression typeof v === \x22object\x22:
true for null, arrays and objects. -/
def jsTypeofObject : JVal → Bool
  | .null => true
  | .arr _ => true
  | .obj _ => true
  | _ => false

/-- Field lookup in an object field list; first occurrence wins, as in a
JavaScript object literal. -/
def fieldLookup : List (String × JVal) → String → Option JVal
  | [], _ => none
  | (k, v) :: rest, key => if k = key then some v else fieldLookup rest key

/-- Result of the JavaScript expression key in v, for the values our model
can hold. Arrays have no named properties apart from indices and length,
so membership of a textual key in an array is false. -/
def jsHasProp (v : JVal) (key : String) : Bool :=
  match v with
  | .obj fields => (fieldLookup fields key).isSome
  | _ => false

/-- JavaScript property access v.key. Reading a property of null throws a
TypeError, modelled as the error case; reading a missing property of any
other value yields undefined, modelled as none. -/
def jsGetProp (v : JVal) (key : String) : Except Unit (Option JVal) :=
  match v with
  | .null => .error ()
  | .obj fields => .ok (fieldLookup fields key)
  | _ => .ok none

/-- Decides whether a property read produced a string value, mirroring
typeof x === \x22string\x22 where undefined is not a string. -/
def isStringProp : Option JVal → Bool
  | some (.str _) => true
  | _ => false

end JVal

namespace JVal

/-- Tests whether a JSON value is null. -/
def isNull : JVal → Bool
  | .null => true
  | _ => false

/-- Safe property read used only after a jsHasProp guard: first-match field
lookup on an object, none on every other value. -/
def propRead (v : JVal) (key : String) : Option JVal :=
  match v with
  | .obj fields => fieldLookup fields key
  | _ => none

/-- String value of a property known (by a prior guard) to be a string. -/
def propString (v : JVal) (key : String) : String :=
  match propRead v key with
  | some (.str s) => s
  | _ => ""

mutual

/-- JavaScript string coercion String(v), restricted to JSON values:
arrays join their coerced elements with commas, objects collapse to the
fixed object tag. -/
def jsToString : JVal → String
  | .null => "null"
  | .bool true => "true"
  | .bool false => "false"
  | .num n => toString n
  | .str s => s
  | .arr xs => jsArrElems xs
  | .obj _ => "[object Object]"

/-- Comma-joined coercion of array elements, as in Array.prototype.join. -/
def jsArrElems : List JVal → String
  | [] => ""
  | x :: rest =>
    match rest with
    | [] => jsArrElem x
    | _ => jsArrElem x ++ "," ++ jsArrElems rest

/-- Coercion of a single array element: null becomes the empty string. -/
def jsArrElem : JVal → String
  | .null => ""
  | .bool true => "true"
  | .bool false => "false"
  | .num n => toString n
  | .str s => s
  | .arr xs => jsArrElems xs
  | .obj _ => "[object Object]"

end

/-- Escapes backslash and double-quote characters for JSON output. -/
def jsonEscapeChars : List Char → List Char
  | [] => []
  | c :: rest =>
    if c = '\\' then '\\' :: '\\' :: jsonEscapeChars rest
    else if c = '\"' then '\\' :: '\"' :: jsonEscapeChars rest
    else c :: jsonEscapeChars rest

/-- Quotes a string as a JSON string literal. -/
def jsonQuote (s : String) : String :=
  "\"" ++ String.mk (jsonEscapeChars s.toList) ++ "\""

mutual

/-- Model of JSON.stringify on JSON values. -/
def stringify : JVal → String
  | .null => "null"
  | .bool true => "true"
  | .bool false => "false"
  | .num n => toString n
  | .str s => jsonQuote s
  | .arr xs => "[" ++ stringifyList xs ++ "]"
  | .obj fs => "\x7b" ++ stringifyFields fs ++ "\x7d"

/-- Comma-separated serialization of array elements. -/
def stringifyList : List JVal → String
  | [] => ""
  | x :: rest =>
    match rest with
    | [] => stringify x
    | _ => stringify x ++ "," ++ stringifyList rest

/-- Comma-separated serialization of object fields. -/
def stringifyFields : List (String × JVal) → String
  | [] => ""
  | (k, v) :: rest =>
    match rest with
    | [] => jsonQuote k ++ ":" ++ stringify v
    | _ => jsonQuote k ++ ":" ++ stringify v ++ "," ++ stringifyFields rest

end

end JVal

/-- Tests whether the second character list occurs at the start of the first. -/
def listStarts : List Char → List Char → Bool
  | _, [] => true
  | [], _ :: _ => false
  | h :: hs, c :: cs => h = c && listStarts hs cs

/-- Tests whether the second character list occurs contiguously anywhere in
the first. -/
def charsHasSeq : List Char → List Char → Bool
  | [], sub => sub.isEmpty
  | h :: hs, sub => listStarts (h :: hs) sub || charsHasSeq hs sub

/-- Model of the JavaScript expression s.includes(sub): substring test. -/
def jsIncludes (s sub : String) : Bool :=
  charsHasSeq s.toList sub.toList

/-- Transcription of common/utils/trimToMaxLength.ts. The source declares
maxLength as an optional parameter defaulting to 100; every call in the
repository uses that default, which this embedding passes explicitly. -/
def trimToMaxLength (str : String) (maxLength : Nat) : String :=
  if str.length > maxLength then str.take (maxLength - 3) ++ "..." else str

/-- Transcription of common/utils/isErrorWithProperty.ts: a duck-typed
shape test for an object carrying a string-valued property. -/
def isErrorWithProperty (e : JVal) (property : String) : Bool :=
  JVal.jsTypeofObject e && !(JVal.isNull e) && JVal.jsHasProp e property &&
    JVal.isStringProp (JVal.propRead e property)

/-- Transcription of common/utils/isErrorWithDetailArray.ts. The final
conjunct reads errors[0].detail, which throws a TypeError when errors[0]
is null; the thrown case is the Except error. -/
def isErrorWithDetailArray (e : JVal) : Except Unit Bool :=
  if !(JVal.jsTypeofObject e) then .ok false
  else if JVal.isNull e then .ok false
  else if !(JVal.jsHasProp e "errors") then .ok false
  else
    match JVal.propRead e "errors" with
    | some (.arr items) =>
      match items with
      | [] => .ok false
      | item0 :: _ =>
        match JVal.jsGetProp item0 "detail" with
        | .error () => .error ()
        | .ok p => .ok (JVal.isStringProp p)
    | _ => .ok false

/-- First detail message of a JSON:API error-array body, read after the
isErrorWithDetailArray guard has accepted the body. -/
def firstDetail (e : JVal) : String :=
  match JVal.propRead e "errors" with
  | some (.arr (item0 :: _)) => JVal.propString item0 "detail"
  | _ => ""

/-- Status discriminant of a FetchBaseQueryError: an HTTP status code or
one of the string statuses of the fetch base query. -/
inductive QStatus where
  | num : Nat → QStatus
  | fetchErr : QStatus
  | parsingErr : QStatus
  | customErr : QStatus
  | timeoutErr : QStatus
deriving DecidableEq

/-- Model of a FetchBaseQueryError: its status, its parsed response body
(the data field) and, for transport-level statuses, its error message. -/
structure FErr where
  status : QStatus
  data : JVal
  emsg : String

/-- The switch cases of handleErrors.ts, in source order: the grouped
transport-level string statuses, the grouped 400 and 403 case, the 404
case, the grouped 401 and 429 case, and the default split into the 5xx
server branch and the residual branch. -/
inductive CodeCase where
  | transportCase : CodeCase
  | case400403 : CodeCase
  | case404 : CodeCase
  | case401429 : CodeCase
  | serverCase : CodeCase
  | otherCase : CodeCase
deriving DecidableEq

/-- Branch selection of the handleErrors switch, a function of the status
alone, transcribed from the switch structure of handleErrors.ts. -/
def caseOf : QStatus → CodeCase
  | .fetchErr => .transportCase
  | .parsingErr => .transportCase
  | .customErr => .transportCase
  | .timeoutErr => .transportCase
  | .num n =>
    if n = 400 ∨ n = 403 then .case400403
    else if n = 404 then .case404
    else if n = 401 ∨ n = 429 then .case401429
    else if 500 ≤ n ∧ n < 600 then .serverCase
    else .otherCase

/-- Observable outcome of one handleErrors run: the switch case that
fired, the toast message shown to the user (if any), and whether the raw
error object was additionally passed to the console logger (errorToast
logs exactly when it receives a second argument). -/
structure HandleResult where
  branch : CodeCase
  toastMsg : Option String
  logged : Bool

/-- Transcription of the handleErrors.ts version introduced by the error
handling lesson: it still contains the 401 case (grouped with 429) and its
400 case has no refresh-token suppression. A thrown TypeError from the
shape guard is the Except error. -/
def handleErrorsV1 (e : FErr) : Except Unit HandleResult :=
  match caseOf e.status with
  | .transportCase => .ok ⟨.transportCase, some e.emsg, false⟩
  | .case400403 =>
    match isErrorWithDetailArray e.data with
    | .error u => .error u
    | .ok true => .ok ⟨.case400403, some (trimToMaxLength (firstDetail e.data) 100), false⟩
    | .ok false => .ok ⟨.case400403, some (JVal.stringify e.data), false⟩
  | .case404 =>
    if isErrorWithProperty e.data "error" then
      .ok ⟨.case404, some (JVal.propString e.data "error"), false⟩
    else .ok ⟨.case404, some (JVal.stringify e.data), false⟩
  | .case401429 =>
    if isErrorWithProperty e.data "message" then
      .ok ⟨.case401429, some (JVal.propString e.data "message"), false⟩
    else .ok ⟨.case401429, some (JVal.stringify e.data), false⟩
  | .serverCase => .ok ⟨.serverCase, some "Server error occurred. Please try again later.", true⟩
  | .otherCase => .ok ⟨.otherCase, some "Some error occurred", false⟩

/-- Transcription of the final handleErrors version used together with
baseQueryWithReauth: the 401 case is removed and the 400 case suppresses
messages whose first detail contains the refreshToken marker. The result
is the toast message, none meaning nothing is displayed. -/
def handleErrorsFinal (e : FErr) : Except Unit (Option String) :=
  match e.status with
  | .fetchErr => .ok (some e.emsg)
  | .parsingErr => .ok (some e.emsg)
  | .customErr => .ok (some e.emsg)
  | .timeoutErr => .ok (some e.emsg)
  | .num n =>
    if n = 400 then
      match isErrorWithDetailArray e.data with
      | .error u => .error u
      | .ok true =>
        let errorMessage := firstDetail e.data
        if jsIncludes errorMessage "refreshToken" then .ok none
        else .ok (some (trimToMaxLength errorMessage 100))
      | .ok false => .ok (some (JVal.stringify e.data))
    else if n = 403 then
      match isErrorWithDetailArray e.data with
      | .error u => .error u
      | .ok true => .ok (some (trimToMaxLength (firstDetail e.data) 100))
      | .ok false => .ok (some (JVal.stringify e.data))
    else if n = 404 then
      if isErrorWithProperty e.data "error" then .ok (some (JVal.propString e.data "error"))
      else .ok (some (JVal.stringify e.data))
    else if n = 429 then
      if isErrorWithProperty e.data "message" then .ok (some (JVal.propString e.data "message"))
      else .ok (some (JVal.stringify e.data))
    else if 500 ≤ n ∧ n < 600 then .ok (some "Server error occurred. Please try again later.")
    else .ok (some "Some error occurred")

/-- Modelled from the spec: the error taxonomy ErrorKind of the Error
Classifier component. -/
inductive ErrorKind where
  | network : ErrorKind
  | timeout : ErrorKind
  | parse : ErrorKind
  | validation : ErrorKind
  | unauthorized : ErrorKind
  | forbidden : ErrorKind
  | notFound : ErrorKind
  | rateLimited : ErrorKind
  | serverFault : ErrorKind
  | custom : String → ErrorKind
deriving DecidableEq

/-- Domain of the classification table stated by the specification:
transport-level failure with no response, a malformed response body, or an
HTTP status code. -/
inductive ClaimStatus where
  | transportFailure : ClaimStatus
  | malformedBody : ClaimStatus
  | httpCode : Nat → ClaimStatus
deriving DecidableEq

/-- Modelled from the spec: the classification table of the Error
Classifier, written exactly as the mapping rules state it. -/
def specClassify : ClaimStatus → ErrorKind
  | .transportFailure => .network
  | .malformedBody => .parse
  | .httpCode n =>
    if n = 400 then .validation
    else if n = 401 then .unauthorized
    else if n = 403 then .forbidden
    else if n = 404 then .notFound
    else if n = 429 then .rateLimited
    else if 500 ≤ n ∧ n < 600 then .serverFault
    else .custom (toString n)

/-- Raw status carried by each point of the classification table: a
transport failure surfaces as the fetch error status, a malformed body as
the parsing error status, and an HTTP code as itself. -/
def claimStatusEmbed : ClaimStatus → QStatus
  | .transportFailure => .fetchErr
  | .malformedBody => .parsingErr
  | .httpCode n => .num n

/-- The handleErrors switch case that handles each error kind. -/
def branchFor : ErrorKind → CodeCase
  | .network => .transportCase
  | .timeout => .transportCase
  | .parse => .transportCase
  | .validation => .case400403
  | .unauthorized => .case401429
  | .forbidden => .case400403
  | .notFound => .case404
  | .rateLimited => .case401429
  | .serverFault => .serverCase
  | .custom _ => .otherCase

/-- Modelled from the spec: the JSON:API error-array shape of the claims,
as a total predicate (an object whose errors field is a non-empty array
whose first element carries a string detail). -/
def matchesDetailArrayShape (e : JVal) : Bool :=
  match JVal.propRead e "errors" with
  | some (.arr (item0 :: _)) => JVal.isStringProp (JVal.propRead item0 "detail")
  | _ => false

/-- Modelled from the spec: the display rule the claims state for 400 and
403 bodies — the capped first detail when the body matches the error-array
shape, otherwise the raw serialized dump. -/
def claimDisplay400 (e : JVal) : Option String :=
  if matchesDetailArrayShape e then some (trimToMaxLength (firstDetail e) 100)
  else some (JVal.stringify e)

/-- The Token Store contents: the two persisted credentials, each absent
when the corresponding storage key is missing. -/
structure Store where
  access : Option String
  refresh : Option String
deriving DecidableEq

/-- Transcription of common/utils/isTokens.ts: a non-null object value
possessing both token properties, with no constraint on their values. -/
def isTokens (d : JVal) : Bool :=
  JVal.jsTypeofObject d && !(JVal.isNull d) &&
    JVal.jsHasProp d "accessToken" && JVal.jsHasProp d "refreshToken"

/-- Outcome of one underlying baseQuery call: a parsed success payload or
a FetchBaseQueryError. -/
inductive QueryResult where
  | ok : JVal → QueryResult
  | err : FErr → QueryResult

/-- Negation of the refresh acceptance test of baseQueryWithReauth.ts:
the refresh failed when its call errored or its payload is not a truthy
token pair. -/
def refreshFailed : QueryResult → Bool
  | .ok d => !(JVal.jsTruthy d && isTokens d)
  | .err _ => true

/-- String stored by localStorage.setItem for a token property of the
refresh payload: the property value coerced to a string. Only reached
when isTokens accepted the payload, so the property is present. -/
def getTokStr (d : JVal) (key : String) : String :=
  JVal.jsToString ((JVal.propRead d key).getD JVal.null)

/-- First-match lookup of a header value. -/
def headerGet : List (String × String) → String → Option String
  | [], _ => none
  | (k, v) :: rest, key => if k = key then some v else headerGet rest key

/-- Model of Headers.set: replaces every binding of the name when one
exists, otherwise appends the new binding. -/
def headersSet (hs : List (String × String)) (key value : String) : List (String × String) :=
  if (headerGet hs key).isSome then
    hs.map (fun p => if p.1 = key then (key, value) else p)
  else hs ++ [(key, value)]

/-- Transcription of prepareHeaders in baseQuery.ts: reads the access
token from storage and, when the value is truthy (present and non-empty),
sets the Authorization header to the Bearer form. -/
def prepareHeaders (accessToken : Option String) (headers : List (String × String)) :
    List (String × String) :=
  match accessToken with
  | none => headers
  | some t => if t = "" then headers else headersSet headers "Authorization" ("Bearer " ++ t)

/-- State of one sequential baseQueryWithReauth run before the final
error-display step: the result about to be returned, the storage contents,
how many refresh calls and how many issues of the original request were
made, and whether a logout was dispatched. -/
structure SeqMid where
  result : QueryResult
  store : Store
  refreshCalls : Nat
  originalCalls : Nat
  logoutDispatched : Bool

/-- Transcription of the body of baseQueryWithReauth.ts for a single
caller with the mutex free: the initial request, the 401 test, the refresh
call with its acceptance test, the token writes and the single retry on
success, or the logout dispatch on failure. The three QueryResult
arguments are the responses of the initial call, the refresh call and the
retried call. -/
def seqPhase1 (st : Store) (resp1 refreshResp retryResp : QueryResult) : SeqMid :=
  match resp1 with
  | .err e1 =>
    if e1.status = QStatus.num 401 then
      match refreshResp with
      | .ok d =>
        if JVal.jsTruthy d && isTokens d then
          { result := retryResp
            store := { access := some (getTokStr d "accessToken")
                       refresh := some (getTokStr d "refreshToken") }
            refreshCalls := 1, originalCalls := 2, logoutDispatched := false }
        else
          { result := resp1, store := st, refreshCalls := 1, originalCalls := 1
            logoutDispatched := true }
      | .err _ =>
        { result := resp1, store := st, refreshCalls := 1, originalCalls := 1
          logoutDispatched := true }
    else
      { result := resp1, store := st, refreshCalls := 0, originalCalls := 1
        logoutDispatched := false }
  | .ok _ =>
    { result := resp1, store := st, refreshCalls := 0, originalCalls := 1
      logoutDispatched := false }

/-- Full observable outcome of a sequential baseQueryWithReauth run,
including the toast message the final handleErrors call produced. -/
structure SeqOutcome where
  result : QueryResult
  store : Store
  refreshCalls : Nat
  originalCalls : Nat
  logoutDispatched : Bool
  toastMsg : Option String

/-- Transcription of the tail of baseQueryWithReauth.ts: every error
except 401 is routed to handleErrors, whose thrown TypeError (if any)
propagates out of the query. -/
def seqFinalize (m : SeqMid) : Except Unit SeqOutcome :=
  match m.result with
  | .err e =>
    if e.status = QStatus.num 401 then
      .ok ⟨m.result, m.store, m.refreshCalls, m.originalCalls, m.logoutDispatched, none⟩
    else
      match handleErrorsFinal e with
      | .error () => .error ()
      | .ok t => .ok ⟨m.result, m.store, m.refreshCalls, m.originalCalls, m.logoutDispatched, t⟩
  | .ok _ => .ok ⟨m.result, m.store, m.refreshCalls, m.originalCalls, m.logoutDispatched, none⟩

/-- Sequential model of baseQueryWithReauth for one caller. -/
def baseQueryWithReauthSeq (st : Store) (resp1 refreshResp retryResp : QueryResult) :
    Except Unit SeqOutcome :=
  seqFinalize (seqPhase1 st resp1 refreshResp retryResp)

/-- Transcription of the logout endpoint and its onQueryStarted handler in
baseApi.ts: the storage removals and the cache reset run strictly after
queryFulfilled resolves, so a failed logout request leaves both inputs
unchanged. The Bool tracks whether resetApiState has been dispatched. -/
def logoutMutation (st : Store) (cacheResetDispatched : Bool) (logoutResp : QueryResult) :
    Store × Bool :=
  match logoutResp with
  | .ok _ => ({ access := none, refresh := none }, true)
  | .err _ => (st, cacheResetDispatched)

/-- Program counter of one request coursing through baseQueryWithReauth.ts
in the concurrent model. Each constructor stands for a suspension point of
the async function; the step relation runs the code between two suspension
points atomically, as the event loop does. In the modelled scenario every
initial response is a 401, as the single-flight claim assumes. -/
inductive RPC where
  | start : RPC
  | inflight : RPC
  | leaderAcq : RPC
  | leaderWait : RPC
  | leaderRetry : RPC
  | waiterWait : RPC
  | waiterRetry : RPC
  | doneLeader : RPC
  | doneWaiter : RPC
deriving DecidableEq

/-- Shared state of the concurrent model: the per-request program
counters, the async-mutex lock flag, how many refresh calls were issued,
and whether the single refresh response has been processed. Token-store
writes and the final display call touch no shared control state and are
left to the sequential model. -/
structure CState (n : Nat) where
  pcs : Fin n → RPC
  locked : Bool
  refreshCount : Nat
  refreshResolved : Bool

/-- Whether the event loop can run request i now: requests parked on
waitForUnlock need the mutex free; completed requests never run again;
every other suspension point resumes when its response or its turn
arrives. -/
def enabledB {n : Nat} (s : CState n) (i : Fin n) : Bool :=
  match s.pcs i with
  | .start => !s.locked
  | .waiterWait => !s.locked
  | .doneLeader => false
  | .doneWaiter => false
  | _ => true

/-- One atomic step of request i, transcribed from baseQueryWithReauth.ts:
passing waitForUnlock and issuing the initial request; processing the 401
response, where the isLocked test and the synchronous lock of
mutex.acquire happen in one continuation; issuing the refresh (counted);
processing the refresh response, which on acceptance stores the tokens and
issues the retry, and otherwise dispatches logout and releases in the
finally block; finishing the retry and releasing; and the waiter path,
which re-issues the original request after the unlock and never touches
the refresh endpoint. The refreshOk parameter is the acceptance test
outcome of the single refresh response. A step of a non-enabled request
leaves the state unchanged. -/
def stepC {n : Nat} (refreshOk : Bool) (s : CState n) (i : Fin n) : CState n :=
  match s.pcs i with
  | .start => if s.locked then s else { s with pcs := Function.update s.pcs i .inflight }
  | .inflight =>
    if s.locked then { s with pcs := Function.update s.pcs i .waiterWait }
    else { s with pcs := Function.update s.pcs i .leaderAcq, locked := true }
  | .leaderAcq =>
    { s with pcs := Function.update s.pcs i .leaderWait, refreshCount := s.refreshCount + 1 }
  | .leaderWait =>
    if refreshOk then
      { s with pcs := Function.update s.pcs i .leaderRetry, refreshResolved := true }
    else
      { s with pcs := Function.update s.pcs i .doneLeader, refreshResolved := true,
               locked := false }
  | .leaderRetry => { s with pcs := Function.update s.pcs i .doneLeader, locked := false }
  | .waiterWait => if s.locked then s else { s with pcs := Function.update s.pcs i .waiterRetry }
  | .waiterRetry => { s with pcs := Function.update s.pcs i .doneWaiter }
  | .doneLeader => s
  | .doneWaiter => s

/-- Runs a schedule: the event loop picks the listed requests in order. -/
def runSched {n : Nat} (refreshOk : Bool) (s : CState n) (sched : List (Fin n)) : CState n :=
  match sched with
  | [] => s
  | i :: rest => runSched refreshOk (stepC refreshOk s i) rest

/-- Initial state: every request about to start, mutex free, no refresh
issued. -/
def initState (n : Nat) : CState n :=
  { pcs := fun _ => .start, locked := false, refreshCount := 0, refreshResolved := false }

/-- Formalization of the 401 responses arriving at approximately the same
time: every request processes its 401 response before the refresh response
is processed, so no 401 continuation runs after the refresh resolved. -/
def syncOk {n : Nat} (refreshOk : Bool) : CState n → List (Fin n) → Bool
  | _, [] => true
  | s, i :: rest =>
    (match s.pcs i with
     | .inflight => !s.refreshResolved
     | _ => true) && syncOk refreshOk (stepC refreshOk s i) rest

/-- A request is complete when it returned its result. -/
def isDoneR : RPC → Bool
  | .doneLeader => true
  | .doneWaiter => true
  | _ => false

/-- Serialized arguments of one fetchPlaylists cache entry, from the
updatePlaylist.onQueryStarted code of the optimistic update lesson. -/
structure PArgs where
  pageNumber : Int
  pageSize : Int
  search : String
deriving DecidableEq

/-- The fetchPlaylists cache: one cached state per argument set. -/
def Cache : Type := PArgs → JVal

/-- Assignment obj.key = v on an object field list: replaces the binding
in place when the key exists, otherwise appends it. -/
def fieldSet (fs : List (String × JVal)) (key : String) (v : JVal) : List (String × JVal) :=
  if (JVal.fieldLookup fs key).isSome then
    fs.map (fun p => if p.1 = key then (key, v) else p)
  else fs ++ [(key, v)]

/-- Object fields of a value for spread syntax; non-objects contribute no
string-keyed fields. -/
def fieldsOf : JVal → List (String × JVal)
  | .obj fs => fs
  | _ => []

/-- JavaScript object spread of two field lists: left keys in order with
right values overriding, then the right-only keys. -/
def spreadMerge (a b : List (String × JVal)) : List (String × JVal) :=
  (a.map fun p =>
    match JVal.fieldLookup b p.1 with
    | some v => (p.1, v)
    | none => p) ++
  b.filter fun q => (JVal.fieldLookup a q.1).isNone

/-- Whether a playlist element has the id the mutation targets, as the
findIndex callback tests with strict equality. -/
def idMatches (p : JVal) (pid : String) : Bool :=
  match JVal.propRead p "id" with
  | some (.str s) => s = pid
  | _ => false

/-- In-place update of the first playlist whose id matches: its attributes
field becomes the spread of its old attributes with the mutation body. -/
def updateFirstMatch (pid : String) (body : JVal) : List JVal → List JVal
  | [] => []
  | p :: rest =>
    if idMatches p pid then
      (match p with
       | .obj fs =>
         JVal.obj (fieldSet fs "attributes"
           (JVal.obj (spreadMerge
             (fieldsOf ((JVal.fieldLookup fs "attributes").getD JVal.null))
             (fieldsOf body))))
       | other => other) :: rest
    else p :: updateFirstMatch pid body rest

/-- The Immer recipe of updatePlaylist.onQueryStarted: finds the playlist
with the mutated id in state.data and merges the mutation body into its
attributes; states without a data array are left unchanged. -/
def recipe (pid : String) (body : JVal) (state : JVal) : JVal :=
  match state with
  | .obj fs =>
    match JVal.fieldLookup fs "data" with
    | some (.arr items) => JVal.obj (fieldSet fs "data" (JVal.arr (updateFirstMatch pid body items)))
    | _ => state
  | _ => state

/-- Undo token of one optimistic patch: the patched key and the snapshot
taken immediately before the patch. -/
structure PatchResult where
  key : PArgs
  snap : JVal

/-- Modelled from the spec: patch(key, mutateFn) of the Cache/Tag Ledger.
The implementation (updateQueryData of the external data-fetching library)
is not part of this repository; per the contract it applies mutateFn to
the cached data and returns a token capable of restoring the pre-patch
snapshot. -/
def applyPatch (c : Cache) (k : PArgs) (f : JVal → JVal) : Cache × PatchResult :=
  (Function.update c k (f (c k)), ⟨k, c k⟩)

/-- Modelled from the spec: undo(UndoToken) of the Cache/Tag Ledger
restores the snapshot captured at patch time. -/
def undoPatch (c : Cache) (p : PatchResult) : Cache :=
  Function.update c p.key p.snap

/-- The patch loop of updatePlaylist.onQueryStarted: patches every cached
argument set in order, pushing each undo token. -/
def patchAll (pid : String) (body : JVal) (c : Cache) : List PArgs → Cache × List PatchResult
  | [] => (c, [])
  | a :: rest =>
    let r := applyPatch c a (recipe pid body)
    let t := patchAll pid body r.1 rest
    (t.1, r.2 :: t.2)

/-- The rollback loop of updatePlaylist.onQueryStarted: undoes the pushed
tokens in push order, as patchResults.forEach does. -/
def undoAll : Cache → List PatchResult → Cache
  | c, [] => c
  | c, p :: ps => undoAll (undoPatch c p) ps

/-- Transcription of updatePlaylist.onQueryStarted: apply the optimistic
patch to every cached argument set; if the confirming request fails, undo
every patch. -/
def updatePlaylistFlow (c : Cache) (args : List PArgs) (pid : String) (body : JVal)
    (success : Bool) : Cache :=
  let t := patchAll pid body c args
  if success then t.1 else undoAll t.1 t.2

/-- Requests currently inside the critical section of the mutex. -/
def isLeaderish : RPC → Bool
  | .leaderAcq => true
  | .leaderWait => true
  | .leaderRetry => true
  | _ => false

/-- Requests that ever entered the critical section. -/
def isLeaderEver : RPC → Bool
  | .leaderAcq => true
  | .leaderWait => true
  | .leaderRetry => true
  | .doneLeader => true
  | _ => false

/-- Requests whose refresh call has been issued. -/
def isEngaged : RPC → Bool
  | .leaderWait => true
  | .leaderRetry => true
  | .doneLeader => true
  | _ => false

/-- Requests whose refresh response has been processed. -/
def isResolvedPC : RPC → Bool
  | .leaderRetry => true
  | .doneLeader => true
  | _ => false

/-- Requests on the waiter path: they observed the mutex locked. -/
def isWaiterish : RPC → Bool
  | .waiterWait => true
  | .waiterRetry => true
  | .doneWaiter => true
  | _ => false

/-- Reachability invariant of the concurrent model: the mutex is locked
exactly when some request sits in its critical section, at most one
request ever enters the critical section, the refresh counter counts the
issued refresh calls of that one request, the resolution flag matches its
progress, and a waiter exists only once a leader exists. -/
def GateInv {n : Nat} (s : CState n) : Prop :=
  (s.locked = true ↔ ∃ i, isLeaderish (s.pcs i) = true) ∧
  (∀ i j, isLeaderEver (s.pcs i) = true → isLeaderEver (s.pcs j) = true → i = j) ∧
  (s.refreshCount = if ∃ i, isEngaged (s.pcs i) = true then 1 else 0) ∧
  (s.refreshResolved = true ↔ ∃ i, isResolvedPC (s.pcs i) = true) ∧
  ((∃ i, isWaiterish (s.pcs i) = true) → ∃ j, isLeaderEver (s.pcs j) = true)

theorem headerGet_append_of_none (hs : List (String × String)) (k v : String)
    (h : headerGet hs k = none) : headerGet (hs ++ [(k, v)]) k = some v := by
  induction hs with
  | nil => simp [headerGet]
  | cons p rest ih =>
    obtain ⟨pk, pv⟩ := p
    by_cases hk : pk = k
    · simp [headerGet, hk] at h
    · simp only [headerGet, List.cons_append] at h ⊢
      rw [if_neg hk] at h ⊢
      exact ih h

theorem headerGet_none_not_found (hs : List (String × String)) (k : String)
    (h : headerGet hs k = none) : (headerGet hs k).isSome = false := by
  simp [h]

/-- Claim C5: the error classifier maps every point of the classification
table (transport failure, malformed body, or an HTTP status code) to the
switch case of handleErrors.ts that the claimed taxonomy entry calls for,
and the selected case is a function of the status alone. -/
theorem classifier_table_matches_code (cs : ClaimStatus) :
    caseOf (claimStatusEmbed cs) = branchFor (specClassify cs) := by
  cases cs with
  | transportFailure => rfl
  | malformedBody => rfl
  | httpCode n =>
    simp only [claimStatusEmbed, caseOf, specClassify]
    split_ifs <;> simp_all [branchFor]

/-- Claim C8: every 5xx error produces the fixed generic toast message,
independent of the response body (so no raw body content can reach the
user), and the raw error is routed to the internal logger. -/
theorem server_fault_generic (n : Nat) (d : JVal) (m : String) (h5 : 500 ≤ n) (h6 : n < 600) :
    handleErrorsV1 ⟨.num n, d, m⟩ =
      .ok ⟨.serverCase, some "Server error occurred. Please try again later.", true⟩ := by
  have hcase : caseOf (QStatus.num n) = .serverCase := by
    simp only [caseOf]
    split_ifs <;> first | rfl | omega
  simp only [handleErrorsV1]
  rw [hcase]

/-- Witness for claim C8 at a concrete 5xx error carrying a body. -/
theorem server_fault_generic_witness :
    handleErrorsV1 ⟨.num 503, .obj [("stack", .str "secret trace")], ""⟩ =
      .ok ⟨.serverCase, some "Server error occurred. Please try again later.", true⟩ :=
  server_fault_generic 503 (.obj [("stack", .str "secret trace")]) "" (by norm_num) (by norm_num)

/-- Claim C6: at the concrete 400 body whose errors array starts with
null, the shape guard of handleErrors throws a TypeError (reading detail
of null) so nothing is displayed, while the claimed behavior for a body
not matching the error-array shape is to display its raw serialization. -/
theorem detail_guard_crash :
    handleErrorsV1 ⟨.num 400, .obj [("errors", .arr [.null])], ""⟩ = .error () ∧
    claimDisplay400 (.obj [("errors", .arr [.null])]) =
      some (JVal.stringify (.obj [("errors", .arr [.null])])) := by
  exact ⟨rfl, rfl⟩

/-- Counterexample for claim C7: a 400 body of the legitimate JSON:API
shape whose first detail merely mentions the refreshToken field — as a
validation error from any non-refresh endpoint can — is suppressed from
display, although the claim requires every 400 not arising from the
refresh-token call to be displayed as usual (here, as its capped first
detail). -/
theorem refresh_suppression_by_content :
    handleErrorsFinal
        ⟨.num 400, .obj [("errors", .arr [.obj [("detail", .str "my refreshToken value is odd")]])], ""⟩
      = .ok none ∧
    claimDisplay400 (.obj [("errors", .arr [.obj [("detail", .str "my refreshToken value is odd")]])])
      = some "my refreshToken value is odd" ∧
    some "my refreshToken value is odd" ≠ (none : Option String) := by
  refine ⟨rfl, rfl, by decide⟩

/-- Claim C7 as amended: the 400 case suppresses exactly those bodies
accepted by the error-array shape guard whose first detail contains the
refreshToken marker (the shape refresh-token failures produce); and the
error of the refresh call made inside baseQueryWithReauth is itself never
routed to display — the coordinator returns the original Unauthorized
result, shows no toast, and dispatches logout. -/
theorem refresh400_suppression_criterion :
    (∀ (d : JVal) (m : String),
        handleErrorsFinal ⟨.num 400, d, m⟩ = .ok none ↔
          isErrorWithDetailArray d = .ok true ∧
            jsIncludes (firstDetail d) "refreshToken" = true) ∧
    (∀ (st : Store) (e1 er : FErr) (r2 : QueryResult), e1.status = QStatus.num 401 →
        ∃ out, baseQueryWithReauthSeq st (.err e1) (.err er) r2 = .ok out ∧
          out.result = QueryResult.err e1 ∧ out.toastMsg = none ∧
          out.logoutDispatched = true) := by
  constructor
  · intro d m
    simp only [handleErrorsFinal]
    cases hg : isErrorWithDetailArray d with
    | error u =>
      cases u
      simp
    | ok b =>
      cases b with
      | false => simp
      | true =>
        by_cases hi : jsIncludes (firstDetail d) "refreshToken" = true
        · simp [hi]
        · simp only [Bool.not_eq_true] at hi
          simp [hi]
  · intro st e1 er r2 h1
    simp only [baseQueryWithReauthSeq, seqPhase1, h1, if_pos]
    simp [seqFinalize, h1]

/-- Witness for claim C7: the coordinator facing a 401 whose refresh call
fails with a 400 returns the 401, displays nothing and dispatches logout. -/
theorem refresh400_suppression_criterion_witness :
    ∃ out, baseQueryWithReauthSeq ⟨some "A1", some "R1"⟩
        (.err ⟨.num 401, .null, ""⟩) (.err ⟨.num 400, .null, ""⟩) (.err ⟨.num 401, .null, ""⟩)
      = .ok out ∧
      out.result = QueryResult.err ⟨.num 401, .null, ""⟩ ∧ out.toastMsg = none ∧
      out.logoutDispatched = true :=
  refresh400_suppression_criterion.2 ⟨some "A1", some "R1"⟩ ⟨.num 401, .null, ""⟩
    ⟨.num 400, .null, ""⟩ (.err ⟨.num 401, .null, ""⟩) rfl

/-- Claim C2: a request whose initial response is 401, whose refresh
succeeds, and whose single retry is 401 again, performs exactly one
refresh call and exactly two issues of the original request, returns the
terminal Unauthorized error of the retry to the caller, and displays no
toast for it. -/
theorem retry_once_terminal (st : Store) (e1 : FErr) (d : JVal) (e2 : FErr)
    (h1 : e1.status = QStatus.num 401)
    (hd : (JVal.jsTruthy d && isTokens d) = true)
    (h2 : e2.status = QStatus.num 401) :
    ∃ out, baseQueryWithReauthSeq st (.err e1) (.ok d) (.err e2) = .ok out ∧
      out.result = QueryResult.err e2 ∧ out.refreshCalls = 1 ∧ out.originalCalls = 2 ∧
      out.toastMsg = none := by
  simp only [baseQueryWithReauthSeq, seqPhase1, h1, if_pos, hd, if_true]
  simp [seqFinalize, h2]

/-- Witness for claim C2 at concrete responses and tokens. -/
theorem retry_once_terminal_witness :
    ∃ out, baseQueryWithReauthSeq ⟨some "A1", some "R1"⟩
        (.err ⟨.num 401, .null, ""⟩)
        (.ok (.obj [("accessToken", .str "A2"), ("refreshToken", .str "R2")]))
        (.err ⟨.num 401, .null, ""⟩)
      = .ok out ∧
      out.result = QueryResult.err ⟨.num 401, .null, ""⟩ ∧ out.refreshCalls = 1 ∧
      out.originalCalls = 2 ∧ out.toastMsg = none :=
  retry_once_terminal ⟨some "A1", some "R1"⟩ ⟨.num 401, .null, ""⟩
    (.obj [("accessToken", .str "A2"), ("refreshToken", .str "R2")])
    ⟨.num 401, .null, ""⟩ rfl rfl rfl

/-- Claim C10: isTokens accepts exactly the object values carrying both
token properties, with no constraint on the property values; and under a
401 the coordinator accepts any such refresh payload, stores the coerced
property values as the new credentials, and retries the original request
once. -/
theorem isTokens_shape_and_coordinator_accepts :
    (∀ d : JVal, isTokens d = true ↔
        ∃ fs, d = JVal.obj fs ∧ (JVal.fieldLookup fs "accessToken").isSome = true ∧
          (JVal.fieldLookup fs "refreshToken").isSome = true) ∧
    (∀ (st : Store) (e1 : FErr) (d : JVal) (r2 : QueryResult),
        e1.status = QStatus.num 401 → isTokens d = true →
        (seqPhase1 st (.err e1) (.ok d) r2).result = r2 ∧
        (seqPhase1 st (.err e1) (.ok d) r2).originalCalls = 2 ∧
        (seqPhase1 st (.err e1) (.ok d) r2).refreshCalls = 1 ∧
        (seqPhase1 st (.err e1) (.ok d) r2).store =
          ⟨some (getTokStr d "accessToken"), some (getTokStr d "refreshToken")⟩) := by
  constructor
  · intro d
    cases d <;>
      simp [isTokens, JVal.jsTypeofObject, JVal.isNull, JVal.jsHasProp]
  · intro st e1 d r2 h1 ht
    have htr : (JVal.jsTruthy d && isTokens d) = true := by
      cases d <;> simp_all [isTokens, JVal.jsTruthy, JVal.jsTypeofObject, JVal.isNull]
    simp [seqPhase1, h1, htr]

/-- Witness for claim C10: a refresh payload whose token fields are a
number and a boolean is accepted, its coerced values are stored, and the
original request is retried. -/
theorem isTokens_shape_and_coordinator_accepts_witness :
    isTokens (.obj [("accessToken", .num 7), ("refreshToken", .bool true)]) = true ∧
    (seqPhase1 ⟨some "A1", some "R1"⟩ (.err ⟨.num 401, .null, ""⟩)
        (.ok (.obj [("accessToken", .num 7), ("refreshToken", .bool true)]))
        (.ok .null)).originalCalls = 2 ∧
    (seqPhase1 ⟨some "A1", some "R1"⟩ (.err ⟨.num 401, .null, ""⟩)
        (.ok (.obj [("accessToken", .num 7), ("refreshToken", .bool true)]))
        (.ok .null)).store = ⟨some "7", some "true"⟩ := by
  have h := isTokens_shape_and_coordinator_accepts.2 ⟨some "A1", some "R1"⟩
    ⟨.num 401, .null, ""⟩ (.obj [("accessToken", .num 7), ("refreshToken", .bool true)])
    (.ok .null) rfl (by rfl)
  refine ⟨by rfl, h.2.1, ?_⟩
  rw [h.2.2.2]
  rfl

/-- Counterexample for claim C4: with the empty string stored as the
access token — a token present in the Token Store — the prepared headers
carry no Authorization header, because the source tests JavaScript
truthiness rather than presence. -/
theorem bearer_header_empty_token :
    headerGet (prepareHeaders (some "") [("API-KEY", "k1")]) "Authorization" = none ∧
    (some "" : Option String) ≠ none := by
  exact ⟨rfl, by decide⟩

/-- Claim C4 as amended: a request whose fresh headers carry no
Authorization binding leaves with the Bearer header exactly when a
non-empty access token is present; an absent token, and equally an
empty-string token (falsy in the source), yield no Authorization header. -/
theorem bearer_header_iff_nonempty_token (tok : Option String) (hs : List (String × String))
    (h : headerGet hs "Authorization" = none) :
    headerGet (prepareHeaders tok hs) "Authorization" =
      (match tok with
       | some t => if t = "" then none else some ("Bearer " ++ t)
       | none => none) := by
  cases tok with
  | none => simpa [prepareHeaders] using h
  | some t =>
    by_cases ht : t = ""
    · simpa [prepareHeaders, ht] using h
    · simp only [prepareHeaders, if_neg ht, headersSet]
      rw [if_neg (by simp [h])]
      rw [headerGet_append_of_none hs _ _ h]

/-- Witness for claim C4 at a concrete non-empty token over fresh headers. -/
theorem bearer_header_iff_nonempty_token_witness :
    headerGet (prepareHeaders (some "A1") [("API-KEY", "k1")]) "Authorization" =
      some "Bearer A1" := by
  have h := bearer_header_iff_nonempty_token (some "A1") [("API-KEY", "k1")] rfl
  simpa using h

theorem patchAll_keys (pid : String) (body : JVal) (args : List PArgs) (c : Cache) :
    ((patchAll pid body c args).2).map PatchResult.key = args := by
  induction args generalizing c with
  | nil => rfl
  | cons a rest ih =>
    simp only [patchAll, applyPatch, List.map_cons, List.cons.injEq, true_and]
    exact ih _

theorem undoAll_update_comm (ps : List PatchResult) (c : Cache) (a : PArgs) (v : JVal)
    (h : a ∉ ps.map PatchResult.key) :
    undoAll (Function.update c a v) ps = Function.update (undoAll c ps) a v := by
  induction ps generalizing c with
  | nil => rfl
  | cons p ps ih =>
    simp only [List.map_cons, List.mem_cons] at h
    push_neg at h
    simp only [undoAll, undoPatch]
    rw [Function.update_comm h.1]
    exact ih _ h.2

theorem patch_undo_roundtrip (pid : String) (body : JVal) (args : List PArgs) (c : Cache)
    (h : args.Nodup) :
    undoAll (patchAll pid body c args).1 (patchAll pid body c args).2 = c := by
  induction args generalizing c with
  | nil => rfl
  | cons a rest ih =>
    obtain ⟨ha, hnd⟩ := List.nodup_cons.mp h
    simp only [patchAll, applyPatch, undoAll, undoPatch]
    rw [undoAll_update_comm _ _ _ _ (by rw [patchAll_keys]; exact ha)]
    rw [ih _ hnd]
    rw [Function.update_idem]
    exact Function.update_eq_self a c

/-- Claim C9: when the confirming request of updatePlaylist fails, undoing
every optimistic patch restores the whole fetchPlaylists cache exactly to
its pre-patch contents, for every cache state, mutation body and list of
distinct cached argument sets. -/
theorem optimistic_rollback (c : Cache) (args : List PArgs) (pid : String) (body : JVal)
    (h : args.Nodup) : updatePlaylistFlow c args pid body false = c := by
  simp only [updatePlaylistFlow, if_neg (Bool.false_ne_true ∘ congrArg id)]
  exact patch_undo_roundtrip pid body args c h

/-- Witness for claim C9 at a concrete two-page cache. -/
theorem optimistic_rollback_witness :
    updatePlaylistFlow
        (fun _ => JVal.obj [("data", JVal.arr [JVal.obj [("id", JVal.str "p1")]])])
        [⟨1, 10, ""⟩, ⟨2, 10, ""⟩] "p1" (JVal.obj [("title", JVal.str "t")]) false
      = fun _ => JVal.obj [("data", JVal.arr [JVal.obj [("id", JVal.str "p1")]])] :=
  optimistic_rollback _ [⟨1, 10, ""⟩, ⟨2, 10, ""⟩] "p1" (JVal.obj [("title", JVal.str "t")])
    (by decide)

theorem update_pred_eq {n : Nat} (P : Fin n → RPC) (i : Fin n) (pc : RPC) (f : RPC → Bool)
    (hf : f pc = f (P i)) (j : Fin n) :
    f (Function.update P i pc j) = f (P j) := by
  by_cases hij : j = i
  · subst hij
    rw [Function.update_same, hf]
  · rw [Function.update_noteq hij]

theorem leaderish_leaderEver {pc : RPC} (h : isLeaderish pc = true) :
    isLeaderEver pc = true := by
  cases pc <;> simp_all [isLeaderish, isLeaderEver]

theorem leaderEver_split {pc : RPC} (h : isLeaderEver pc = true) :
    isLeaderish pc = true ∨ isResolvedPC pc = true := by
  cases pc <;> simp_all [isLeaderish, isLeaderEver, isResolvedPC]

theorem engaged_leaderEver {pc : RPC} (h : isEngaged pc = true) :
    isLeaderEver pc = true := by
  cases pc <;> simp_all [isEngaged, isLeaderEver]

theorem gateInv_init (n : Nat) : GateInv (initState n) := by
  refine ⟨?_, ?_, ?_, ?_, ?_⟩ <;>
    simp [initState, isLeaderish, isLeaderEver, isEngaged, isResolvedPC, isWaiterish]


theorem update_exists_iff {n : Nat} (P : Fin n → RPC) (i : Fin n) (pc : RPC) (f : RPC → Bool)
    (hf : f pc = f (P i)) :
    (∃ j, f (Function.update P i pc j) = true) ↔ (∃ j, f (P j) = true) := by
  constructor
  · rintro ⟨j, hj⟩
    rw [update_pred_eq P i pc f hf j] at hj
    exact ⟨j, hj⟩
  · rintro ⟨j, hj⟩
    exact ⟨j, by rw [update_pred_eq P i pc f hf j]; exact hj⟩

theorem update_forall_false {n : Nat} (P : Fin n → RPC) (i : Fin n) (pc : RPC) (f : RPC → Bool)
    (hnew : f pc = false) (hold : ∀ j, j ≠ i → f (P j) = false) (j : Fin n) :
    f (Function.update P i pc j) = false := by
  by_cases hji : j = i
  · subst hji
    rw [Function.update_same]
    exact hnew
  · rw [Function.update_noteq hji]
    exact hold j hji

theorem update_unique_of {n : Nat} (P : Fin n → RPC) (i : Fin n) (pc : RPC) (f : RPC → Bool)
    (hold : ∀ j, j ≠ i → f (P j) = false) :
    ∀ a b, f (Function.update P i pc a) = true → f (Function.update P i pc b) = true → a = b := by
  have key : ∀ c, f (Function.update P i pc c) = true → c = i := by
    intro c hc
    by_cases hci : c = i
    · exact hci
    · rw [Function.update_noteq hci, hold c hci] at hc
      simp at hc
  intro a b ha hb
  rw [key a ha, key b hb]

theorem resolved_leaderEver {pc : RPC} (h : isResolvedPC pc = true) :
    isLeaderEver pc = true := by
  cases pc <;> simp_all [isResolvedPC, isLeaderEver]

theorem not_ever_not_leaderish {pc : RPC} (h : isLeaderEver pc = false) :
    isLeaderish pc = false := by
  cases pc <;> simp_all [isLeaderEver, isLeaderish]

theorem not_ever_not_engaged {pc : RPC} (h : isLeaderEver pc = false) :
    isEngaged pc = false := by
  cases pc <;> simp_all [isLeaderEver, isEngaged]

theorem not_ever_not_resolved {pc : RPC} (h : isLeaderEver pc = false) :
    isResolvedPC pc = false := by
  cases pc <;> simp_all [isLeaderEver, isResolvedPC]

theorem gateInv_step {n : Nat} (ok : Bool) (s : CState n) (i : Fin n) (hInv : GateInv s)
    (hsync : s.pcs i = RPC.inflight → s.refreshResolved = false) :
    GateInv (stepC ok s i) := by
  obtain ⟨h1, h2, h3, h4, h5⟩ := hInv
  cases hpc : s.pcs i with
  | start =>
    by_cases hl : s.locked = true
    · have hstep : stepC ok s i = s := by simp [stepC, hpc, hl]
      rw [hstep]
      exact ⟨h1, h2, h3, h4, h5⟩
    · have hstep : stepC ok s i = { s with pcs := Function.update s.pcs i RPC.inflight } := by
        simp [stepC, hpc, hl]
      rw [hstep]
      have eL := update_exists_iff s.pcs i RPC.inflight isLeaderish (by simp [hpc, isLeaderish])
      have eE := update_exists_iff s.pcs i RPC.inflight isEngaged (by simp [hpc, isEngaged])
      have eR := update_exists_iff s.pcs i RPC.inflight isResolvedPC (by simp [hpc, isResolvedPC])
      have eW := update_exists_iff s.pcs i RPC.inflight isWaiterish (by simp [hpc, isWaiterish])
      have pEv := update_pred_eq s.pcs i RPC.inflight isLeaderEver (by simp [hpc, isLeaderEver])
      have eEv := update_exists_iff s.pcs i RPC.inflight isLeaderEver (by simp [hpc, isLeaderEver])
      have c1 : s.locked = true ↔
          ∃ j, isLeaderish (Function.update s.pcs i RPC.inflight j) = true := by
        rw [eL]; exact h1
      have c2 : ∀ a b, isLeaderEver (Function.update s.pcs i RPC.inflight a) = true →
          isLeaderEver (Function.update s.pcs i RPC.inflight b) = true → a = b := by
        intro a b ha hb
        rw [pEv a] at ha
        rw [pEv b] at hb
        exact h2 a b ha hb
      have c3 : s.refreshCount =
          if ∃ j, isEngaged (Function.update s.pcs i RPC.inflight j) = true then 1 else 0 := by
        rw [h3]
        by_cases he : ∃ j, isEngaged (s.pcs j) = true
        · rw [if_pos he, if_pos (eE.mpr he)]
        · rw [if_neg he, if_neg (fun hx => he (eE.mp hx))]
      have c4 : s.refreshResolved = true ↔
          ∃ j, isResolvedPC (Function.update s.pcs i RPC.inflight j) = true := by
        rw [eR]; exact h4
      have c5 : (∃ j, isWaiterish (Function.update s.pcs i RPC.inflight j) = true) →
          ∃ j, isLeaderEver (Function.update s.pcs i RPC.inflight j) = true := by
        intro hw
        exact eEv.mpr (h5 (eW.mp hw))
      exact ⟨c1, c2, c3, c4, c5⟩
  | inflight =>
    have hres : s.refreshResolved = false := hsync hpc
    by_cases hl : s.locked = true
    · have hstep : stepC ok s i = { s with pcs := Function.update s.pcs i RPC.waiterWait } := by
        simp [stepC, hpc, hl]
      rw [hstep]
      have eL := update_exists_iff s.pcs i RPC.waiterWait isLeaderish (by simp [hpc, isLeaderish])
      have eE := update_exists_iff s.pcs i RPC.waiterWait isEngaged (by simp [hpc, isEngaged])
      have eR := update_exists_iff s.pcs i RPC.waiterWait isResolvedPC
        (by simp [hpc, isResolvedPC])
      have pEv := update_pred_eq s.pcs i RPC.waiterWait isLeaderEver (by simp [hpc, isLeaderEver])
      have eEv := update_exists_iff s.pcs i RPC.waiterWait isLeaderEver
        (by simp [hpc, isLeaderEver])
      have c1 : s.locked = true ↔
          ∃ j, isLeaderish (Function.update s.pcs i RPC.waiterWait j) = true := by
        rw [eL]; exact h1
      have c2 : ∀ a b, isLeaderEver (Function.update s.pcs i RPC.waiterWait a) = true →
          isLeaderEver (Function.update s.pcs i RPC.waiterWait b) = true → a = b := by
        intro a b ha hb
        rw [pEv a] at ha
        rw [pEv b] at hb
        exact h2 a b ha hb
      have c3 : s.refreshCount =
          if ∃ j, isEngaged (Function.update s.pcs i RPC.waiterWait j) = true then 1 else 0 := by
        rw [h3]
        by_cases he : ∃ j, isEngaged (s.pcs j) = true
        · rw [if_pos he, if_pos (eE.mpr he)]
        · rw [if_neg he, if_neg (fun hx => he (eE.mp hx))]
      have c4 : s.refreshResolved = true ↔
          ∃ j, isResolvedPC (Function.update s.pcs i RPC.waiterWait j) = true := by
        rw [eR]; exact h4
      have c5 : (∃ j, isWaiterish (Function.update s.pcs i RPC.waiterWait j) = true) →
          ∃ j, isLeaderEver (Function.update s.pcs i RPC.waiterWait j) = true := by
        intro _
        obtain ⟨j, hj⟩ := h1.mp hl
        exact eEv.mpr ⟨j, leaderish_leaderEver hj⟩
      exact ⟨c1, c2, c3, c4, c5⟩
    · have hstep : stepC ok s i =
          { s with pcs := Function.update s.pcs i RPC.leaderAcq, locked := true } := by
        simp [stepC, hpc, hl]
      rw [hstep]
      have hnoever : ∀ j, isLeaderEver (s.pcs j) = false := by
        intro j
        cases hj : isLeaderEver (s.pcs j) with
        | false => rfl
        | true =>
          exfalso
          rcases leaderEver_split hj with hc | hc
          · exact hl (h1.mpr ⟨j, hc⟩)
          · rw [h4.mpr ⟨j, hc⟩] at hres
            exact Bool.noConfusion hres
      have c1 : (true = true) ↔
          ∃ j, isLeaderish (Function.update s.pcs i RPC.leaderAcq j) = true :=
        ⟨fun _ => ⟨i, by simp [Function.update_same, isLeaderish]⟩, fun _ => rfl⟩
      have c2 : ∀ a b, isLeaderEver (Function.update s.pcs i RPC.leaderAcq a) = true →
          isLeaderEver (Function.update s.pcs i RPC.leaderAcq b) = true → a = b :=
        update_unique_of s.pcs i RPC.leaderAcq isLeaderEver (fun j _ => hnoever j)
      have hnoengU : ∀ j, isEngaged (Function.update s.pcs i RPC.leaderAcq j) = false :=
        update_forall_false s.pcs i RPC.leaderAcq isEngaged (by simp [isEngaged])
          (fun j _ => not_ever_not_engaged (hnoever j))
      have c3 : s.refreshCount =
          if ∃ j, isEngaged (Function.update s.pcs i RPC.leaderAcq j) = true then 1 else 0 := by
        have hnoeng : ¬∃ j, isEngaged (s.pcs j) = true := by
          rintro ⟨j, hj⟩
          rw [not_ever_not_engaged (hnoever j)] at hj
          exact Bool.noConfusion hj
        have hnoengU2 : ¬∃ j, isEngaged (Function.update s.pcs i RPC.leaderAcq j) = true := by
          rintro ⟨j, hj⟩
          rw [hnoengU j] at hj
          exact Bool.noConfusion hj
        rw [h3, if_neg hnoeng, if_neg hnoengU2]
      have hnoresU : ∀ j, isResolvedPC (Function.update s.pcs i RPC.leaderAcq j) = false :=
        update_forall_false s.pcs i RPC.leaderAcq isResolvedPC (by simp [isResolvedPC])
          (fun j _ => not_ever_not_resolved (hnoever j))
      have c4 : s.refreshResolved = true ↔
          ∃ j, isResolvedPC (Function.update s.pcs i RPC.leaderAcq j) = true := by
        rw [hres]
        constructor
        · intro hx
          exact Bool.noConfusion hx
        · rintro ⟨j, hj⟩
          rw [hnoresU j] at hj
          exact Bool.noConfusion hj
      have c5 : (∃ j, isWaiterish (Function.update s.pcs i RPC.leaderAcq j) = true) →
          ∃ j, isLeaderEver (Function.update s.pcs i RPC.leaderAcq j) = true :=
        fun _ => ⟨i, by simp [Function.update_same, isLeaderEver]⟩
      exact ⟨c1, c2, c3, c4, c5⟩
  | leaderAcq =>
    have hstep : stepC ok s i = { s with pcs := Function.update s.pcs i RPC.leaderWait, refreshCount := s.refreshCount + 1 } := by
      simp [stepC, hpc]
    rw [hstep]
    have hself : isLeaderEver (s.pcs i) = true := by simp [hpc, isLeaderEver]
    have huniq : ∀ j, j ≠ i → isLeaderEver (s.pcs j) = false := by
      intro j hji
      cases hj : isLeaderEver (s.pcs j) with
      | false => rfl
      | true => exact absurd (h2 j i hj hself) hji
    have hlock : s.locked = true := h1.mpr ⟨i, by simp [hpc, isLeaderish]⟩
    have hnoeng : ¬∃ j, isEngaged (s.pcs j) = true := by
      rintro ⟨j, hj⟩
      by_cases hji : j = i
      · subst hji
        rw [hpc] at hj
        simp [isEngaged] at hj
      · rw [not_ever_not_engaged (huniq j hji)] at hj
        exact Bool.noConfusion hj
    have hnores : ∀ j, isResolvedPC (s.pcs j) = false := by
      intro j
      by_cases hji : j = i
      · subst hji
        rw [hpc]
        simp [isResolvedPC]
      · exact not_ever_not_resolved (huniq j hji)
    have hres : s.refreshResolved = false := by
      cases hr : s.refreshResolved with
      | false => rfl
      | true =>
        obtain ⟨j, hj⟩ := h4.mp hr
        rw [hnores j] at hj
        exact Bool.noConfusion hj
    have c1 : s.locked = true ↔
        ∃ j, isLeaderish (Function.update s.pcs i RPC.leaderWait j) = true :=
      ⟨fun _ => ⟨i, by simp [Function.update_same, isLeaderish]⟩, fun _ => hlock⟩
    have c2 : ∀ a b, isLeaderEver (Function.update s.pcs i RPC.leaderWait a) = true →
        isLeaderEver (Function.update s.pcs i RPC.leaderWait b) = true → a = b :=
      update_unique_of s.pcs i RPC.leaderWait isLeaderEver huniq
    have c3 : s.refreshCount + 1 =
        if ∃ j, isEngaged (Function.update s.pcs i RPC.leaderWait j) = true then 1 else 0 := by
      rw [if_pos ⟨i, by simp [Function.update_same, isEngaged]⟩, h3, if_neg hnoeng]
    have hnoresU : ∀ j, isResolvedPC (Function.update s.pcs i RPC.leaderWait j) = false :=
      update_forall_false s.pcs i RPC.leaderWait isResolvedPC (by simp [isResolvedPC])
        (fun j _ => hnores j)
    have c4 : s.refreshResolved = true ↔
        ∃ j, isResolvedPC (Function.update s.pcs i RPC.leaderWait j) = true := by
      rw [hres]
      constructor
      · intro hx
        exact Bool.noConfusion hx
      · rintro ⟨j, hj⟩
        rw [hnoresU j] at hj
        exact Bool.noConfusion hj
    have c5 : (∃ j, isWaiterish (Function.update s.pcs i RPC.leaderWait j) = true) →
        ∃ j, isLeaderEver (Function.update s.pcs i RPC.leaderWait j) = true :=
      fun _ => ⟨i, by simp [Function.update_same, isLeaderEver]⟩
    exact ⟨c1, c2, c3, c4, c5⟩
  | leaderWait =>
    have hself : isLeaderEver (s.pcs i) = true := by simp [hpc, isLeaderEver]
    have huniq : ∀ j, j ≠ i → isLeaderEver (s.pcs j) = false := by
      intro j hji
      cases hj : isLeaderEver (s.pcs j) with
      | false => rfl
      | true => exact absurd (h2 j i hj hself) hji
    have hlock : s.locked = true := h1.mpr ⟨i, by simp [hpc, isLeaderish]⟩
    have hengOld : ∃ j, isEngaged (s.pcs j) = true := ⟨i, by simp [hpc, isEngaged]⟩
    by_cases ho : ok = true
    · have hstep : stepC ok s i = { s with pcs := Function.update s.pcs i RPC.leaderRetry, refreshResolved := true } := by
        simp [stepC, hpc, ho]
      rw [hstep]
      have c1 : s.locked = true ↔
          ∃ j, isLeaderish (Function.update s.pcs i RPC.leaderRetry j) = true :=
        ⟨fun _ => ⟨i, by simp [Function.update_same, isLeaderish]⟩, fun _ => hlock⟩
      have c2 : ∀ a b, isLeaderEver (Function.update s.pcs i RPC.leaderRetry a) = true →
          isLeaderEver (Function.update s.pcs i RPC.leaderRetry b) = true → a = b :=
        update_unique_of s.pcs i RPC.leaderRetry isLeaderEver huniq
      have c3 : s.refreshCount =
          if ∃ j, isEngaged (Function.update s.pcs i RPC.leaderRetry j) = true then 1 else 0 := by
        rw [if_pos ⟨i, by simp [Function.update_same, isEngaged]⟩, h3, if_pos hengOld]
      have c4 : (true = true) ↔
          ∃ j, isResolvedPC (Function.update s.pcs i RPC.leaderRetry j) = true :=
        ⟨fun _ => ⟨i, by simp [Function.update_same, isResolvedPC]⟩, fun _ => rfl⟩
      have c5 : (∃ j, isWaiterish (Function.update s.pcs i RPC.leaderRetry j) = true) →
          ∃ j, isLeaderEver (Function.update s.pcs i RPC.leaderRetry j) = true :=
        fun _ => ⟨i, by simp [Function.update_same, isLeaderEver]⟩
      exact ⟨c1, c2, c3, c4, c5⟩
    · have hstep : stepC ok s i = { s with pcs := Function.update s.pcs i RPC.doneLeader, locked := false, refreshResolved := true } := by
        simp [stepC, hpc, ho]
      rw [hstep]
      have hUL : ∀ j, isLeaderish (Function.update s.pcs i RPC.doneLeader j) = false :=
        update_forall_false s.pcs i RPC.doneLeader isLeaderish (by simp [isLeaderish])
          (fun j hji => not_ever_not_leaderish (huniq j hji))
      have c1 : (false = true) ↔
          ∃ j, isLeaderish (Function.update s.pcs i RPC.doneLeader j) = true := by
        constructor
        · intro hx
          exact Bool.noConfusion hx
        · rintro ⟨j, hj⟩
          rw [hUL j] at hj
          exact Bool.noConfusion hj
      have c2 : ∀ a b, isLeaderEver (Function.update s.pcs i RPC.doneLeader a) = true →
          isLeaderEver (Function.update s.pcs i RPC.doneLeader b) = true → a = b :=
        update_unique_of s.pcs i RPC.doneLeader isLeaderEver huniq
      have c3 : s.refreshCount =
          if ∃ j, isEngaged (Function.update s.pcs i RPC.doneLeader j) = true then 1 else 0 := by
        rw [if_pos ⟨i, by simp [Function.update_same, isEngaged]⟩, h3, if_pos hengOld]
      have c4 : (true = true) ↔
          ∃ j, isResolvedPC (Function.update s.pcs i RPC.doneLeader j) = true :=
        ⟨fun _ => ⟨i, by simp [Function.update_same, isResolvedPC]⟩, fun _ => rfl⟩
      have c5 : (∃ j, isWaiterish (Function.update s.pcs i RPC.doneLeader j) = true) →
          ∃ j, isLeaderEver (Function.update s.pcs i RPC.doneLeader j) = true :=
        fun _ => ⟨i, by simp [Function.update_same, isLeaderEver]⟩
      exact ⟨c1, c2, c3, c4, c5⟩
  | leaderRetry =>
    have hstep : stepC ok s i = { s with pcs := Function.update s.pcs i RPC.doneLeader, locked := false } := by
      simp [stepC, hpc]
    rw [hstep]
    have hself : isLeaderEver (s.pcs i) = true := by simp [hpc, isLeaderEver]
    have huniq : ∀ j, j ≠ i → isLeaderEver (s.pcs j) = false := by
      intro j hji
      cases hj : isLeaderEver (s.pcs j) with
      | false => rfl
      | true => exact absurd (h2 j i hj hself) hji
    have hrr : s.refreshResolved = true := h4.mpr ⟨i, by simp [hpc, isResolvedPC]⟩
    have hUL : ∀ j, isLeaderish (Function.update s.pcs i RPC.doneLeader j) = false :=
      update_forall_false s.pcs i RPC.doneLeader isLeaderish (by simp [isLeaderish])
        (fun j hji => not_ever_not_leaderish (huniq j hji))
    have c1 : (false = true) ↔
        ∃ j, isLeaderish (Function.update s.pcs i RPC.doneLeader j) = true := by
      constructor
      · intro hx
        exact Bool.noConfusion hx
      · rintro ⟨j, hj⟩
        rw [hUL j] at hj
        exact Bool.noConfusion hj
    have c2 : ∀ a b, isLeaderEver (Function.update s.pcs i RPC.doneLeader a) = true →
        isLeaderEver (Function.update s.pcs i RPC.doneLeader b) = true → a = b :=
      update_unique_of s.pcs i RPC.doneLeader isLeaderEver huniq
    have c3 : s.refreshCount =
        if ∃ j, isEngaged (Function.update s.pcs i RPC.doneLeader j) = true then 1 else 0 := by
      rw [if_pos ⟨i, by simp [Function.update_same, isEngaged]⟩, h3,
        if_pos ⟨i, by simp [hpc, isEngaged]⟩]
    have c4 : s.refreshResolved = true ↔
        ∃ j, isResolvedPC (Function.update s.pcs i RPC.doneLeader j) = true := by
      rw [hrr]
      exact ⟨fun _ => ⟨i, by simp [Function.update_same, isResolvedPC]⟩, fun _ => rfl⟩
    have c5 : (∃ j, isWaiterish (Function.update s.pcs i RPC.doneLeader j) = true) →
        ∃ j, isLeaderEver (Function.update s.pcs i RPC.doneLeader j) = true :=
      fun _ => ⟨i, by simp [Function.update_same, isLeaderEver]⟩
    exact ⟨c1, c2, c3, c4, c5⟩
  | waiterWait =>
    by_cases hl : s.locked = true
    · have hstep : stepC ok s i = s := by simp [stepC, hpc, hl]
      rw [hstep]
      exact ⟨h1, h2, h3, h4, h5⟩
    · have hstep : stepC ok s i = { s with pcs := Function.update s.pcs i RPC.waiterRetry } := by
        simp [stepC, hpc, hl]
      rw [hstep]
      have eL := update_exists_iff s.pcs i RPC.waiterRetry isLeaderish (by simp [hpc, isLeaderish])
      have eE := update_exists_iff s.pcs i RPC.waiterRetry isEngaged (by simp [hpc, isEngaged])
      have eR := update_exists_iff s.pcs i RPC.waiterRetry isResolvedPC
        (by simp [hpc, isResolvedPC])
      have eW := update_exists_iff s.pcs i RPC.waiterRetry isWaiterish (by simp [hpc, isWaiterish])
      have pEv := update_pred_eq s.pcs i RPC.waiterRetry isLeaderEver (by simp [hpc, isLeaderEver])
      have eEv := update_exists_iff s.pcs i RPC.waiterRetry isLeaderEver
        (by simp [hpc, isLeaderEver])
      have c1 : s.locked = true ↔
          ∃ j, isLeaderish (Function.update s.pcs i RPC.waiterRetry j) = true := by
        rw [eL]; exact h1
      have c2 : ∀ a b, isLeaderEver (Function.update s.pcs i RPC.waiterRetry a) = true →
          isLeaderEver (Function.update s.pcs i RPC.waiterRetry b) = true → a = b := by
        intro a b ha hb
        rw [pEv a] at ha
        rw [pEv b] at hb
        exact h2 a b ha hb
      have c3 : s.refreshCount =
          if ∃ j, isEngaged (Function.update s.pcs i RPC.waiterRetry j) = true then 1 else 0 := by
        rw [h3]
        by_cases he : ∃ j, isEngaged (s.pcs j) = true
        · rw [if_pos he, if_pos (eE.mpr he)]
        · rw [if_neg he, if_neg (fun hx => he (eE.mp hx))]
      have c4 : s.refreshResolved = true ↔
          ∃ j, isResolvedPC (Function.update s.pcs i RPC.waiterRetry j) = true := by
        rw [eR]; exact h4
      have c5 : (∃ j, isWaiterish (Function.update s.pcs i RPC.waiterRetry j) = true) →
          ∃ j, isLeaderEver (Function.update s.pcs i RPC.waiterRetry j) = true := by
        intro hw
        exact eEv.mpr (h5 (eW.mp hw))
      exact ⟨c1, c2, c3, c4, c5⟩
  | waiterRetry =>
    have hstep : stepC ok s i = { s with pcs := Function.update s.pcs i RPC.doneWaiter } := by
      simp [stepC, hpc]
    rw [hstep]
    have eL := update_exists_iff s.pcs i RPC.doneWaiter isLeaderish (by simp [hpc, isLeaderish])
    have eE := update_exists_iff s.pcs i RPC.doneWaiter isEngaged (by simp [hpc, isEngaged])
    have eR := update_exists_iff s.pcs i RPC.doneWaiter isResolvedPC (by simp [hpc, isResolvedPC])
    have eW := update_exists_iff s.pcs i RPC.doneWaiter isWaiterish (by simp [hpc, isWaiterish])
    have pEv := update_pred_eq s.pcs i RPC.doneWaiter isLeaderEver (by simp [hpc, isLeaderEver])
    have eEv := update_exists_iff s.pcs i RPC.doneWaiter isLeaderEver (by simp [hpc, isLeaderEver])
    have c1 : s.locked = true ↔
        ∃ j, isLeaderish (Function.update s.pcs i RPC.doneWaiter j) = true := by
      rw [eL]; exact h1
    have c2 : ∀ a b, isLeaderEver (Function.update s.pcs i RPC.doneWaiter a) = true →
        isLeaderEver (Function.update s.pcs i RPC.doneWaiter b) = true → a = b := by
      intro a b ha hb
      rw [pEv a] at ha
      rw [pEv b] at hb
      exact h2 a b ha hb
    have c3 : s.refreshCount =
        if ∃ j, isEngaged (Function.update s.pcs i RPC.doneWaiter j) = true then 1 else 0 := by
      rw [h3]
      by_cases he : ∃ j, isEngaged (s.pcs j) = true
      · rw [if_pos he, if_pos (eE.mpr he)]
      · rw [if_neg he, if_neg (fun hx => he (eE.mp hx))]
    have c4 : s.refreshResolved = true ↔
        ∃ j, isResolvedPC (Function.update s.pcs i RPC.doneWaiter j) = true := by
      rw [eR]; exact h4
    have c5 : (∃ j, isWaiterish (Function.update s.pcs i RPC.doneWaiter j) = true) →
        ∃ j, isLeaderEver (Function.update s.pcs i RPC.doneWaiter j) = true := by
      intro hw
      exact eEv.mpr (h5 (eW.mp hw))
    exact ⟨c1, c2, c3, c4, c5⟩
  | doneLeader =>
    have hstep : stepC ok s i = s := by simp [stepC, hpc]
    rw [hstep]
    exact ⟨h1, h2, h3, h4, h5⟩
  | doneWaiter =>
    have hstep : stepC ok s i = s := by simp [stepC, hpc]
    rw [hstep]
    exact ⟨h1, h2, h3, h4, h5⟩

theorem gateInv_run {n : Nat} (ok : Bool) (s : CState n) (sched : List (Fin n))
    (hInv : GateInv s) (hsync : syncOk ok s sched = true) :
    GateInv (runSched ok s sched) := by
  induction sched generalizing s with
  | nil => exact hInv
  | cons i rest ih =>
    simp only [syncOk, Bool.and_eq_true] at hsync
    obtain ⟨hs1, hs2⟩ := hsync
    simp only [runSched]
    refine ih _ (gateInv_step ok s i hInv ?_) hs2
    intro hpc
    rw [hpc] at hs1
    simpa using hs1

theorem gateInv_final {n : Nat} (s : CState n) (hn : 0 < n) (hInv : GateInv s)
    (hq : ∀ i, enabledB s i = false) :
    (∀ i, isDoneR (s.pcs i) = true) ∧ s.refreshCount = 1 := by
  obtain ⟨h1, h2, h3, h4, h5⟩ := hInv
  have hlocked_false : s.locked = false := by
    cases hlk : s.locked with
    | false => rfl
    | true =>
      obtain ⟨j, hj⟩ := h1.mp hlk
      have hqj := hq j
      exfalso
      cases hx : s.pcs j <;> simp [enabledB, hx, hlk] at hqj <;>
        simp [isLeaderish, hx] at hj
  have hdone : ∀ i, isDoneR (s.pcs i) = true := by
    intro i
    have hqi := hq i
    cases hx : s.pcs i <;> simp [enabledB, hx, hlocked_false] at hqi <;>
      simp [isDoneR, hx]
  refine ⟨hdone, ?_⟩
  have i0 : Fin n := ⟨0, hn⟩
  have hLE : ∃ j, isLeaderEver (s.pcs j) = true := by
    have hd := hdone i0
    cases hx : s.pcs i0
    case doneLeader => exact ⟨i0, by simp [isLeaderEver, hx]⟩
    case doneWaiter => exact h5 ⟨i0, by simp [isWaiterish, hx]⟩
    all_goals simp [isDoneR, hx] at hd
  obtain ⟨j, hj⟩ := hLE
  have hdj := hdone j
  have hengaged : isEngaged (s.pcs j) = true := by
    cases hx : s.pcs j <;> simp_all [isLeaderEver, isDoneR, isEngaged]
  rw [h3, if_pos ⟨j, hengaged⟩]

/-- Claim C1: for every number of concurrent requests that all receive a
401 and process it before the single refresh response is handled (the
formalization of receiving Unauthorized at approximately the same time),
and for every complete schedule of the event loop (one that runs until no
request can step), every request completes and exactly one refresh call
was issued — the waiters share the outcome of the one refresh and never
invoke it themselves. -/
theorem single_flight_refresh (n : Nat) (hn : 2 ≤ n) (ok : Bool) (sched : List (Fin n))
    (hsync : syncOk ok (initState n) sched = true)
    (hq : ∀ i, enabledB (runSched ok (initState n) sched) i = false) :
    (∀ i, isDoneR ((runSched ok (initState n) sched).pcs i) = true) ∧
      (runSched ok (initState n) sched).refreshCount = 1 :=
  gateInv_final (runSched ok (initState n) sched) (by omega)
    (gateInv_run ok (initState n) sched (gateInv_init n) hsync) hq

/-- Witness for claim C1: a concrete complete schedule of two requests
with a successful refresh. -/
theorem single_flight_refresh_witness :
    (∀ i, isDoneR ((runSched true (initState 2) [0, 1, 0, 1, 0, 0, 0, 1, 1]).pcs i) = true) ∧
      (runSched true (initState 2) [0, 1, 0, 1, 0, 0, 0, 1, 1]).refreshCount = 1 :=
  single_flight_refresh 2 (by decide) true [0, 1, 0, 1, 0, 0, 0, 1, 1] (by decide) (by decide)

/-- Counterexample for claim C3: with tokens stored, a failed refresh
dispatches the logout mutation, but when the logout request itself fails
the logout removes nothing — the access token is still present and the
cache ledger is not reset, although the claim requires both tokens removed
and the ledger reset whenever a refresh fails. -/
theorem refresh_failure_logout_not_unconditional :
    (seqPhase1 ⟨some "A1", some "R1"⟩ (.err ⟨.num 401, .null, ""⟩)
        (.err ⟨.num 400, .null, ""⟩) (.ok .null)).logoutDispatched = true ∧
    logoutMutation ⟨some "A1", some "R1"⟩ false (.err ⟨.num 400, .null, ""⟩) =
      (⟨some "A1", some "R1"⟩, false) ∧
    (some "A1" : Option String) ≠ none := by
  exact ⟨rfl, rfl, by decide⟩

/-- Claim C3 as amended: whenever a token refresh fails, the coordinator
dispatches a logout mutation, performs no retry and returns the original
Unauthorized result with storage unchanged; the logout mutation removes
both tokens and resets the cache ledger exactly when its own request
succeeds, and leaves both unchanged when it fails; and every request that
waited on the failed refresh completes after its single retry with no
further refresh call (the refresh count of every completed schedule stays
one). -/
theorem refresh_failure_logout_conditional :
    (∀ (st : Store) (e1 : FErr) (rr r2 : QueryResult),
        e1.status = QStatus.num 401 → refreshFailed rr = true →
        (seqPhase1 st (.err e1) rr r2).logoutDispatched = true ∧
        (seqPhase1 st (.err e1) rr r2).result = QueryResult.err e1 ∧
        (seqPhase1 st (.err e1) rr r2).store = st ∧
        (seqPhase1 st (.err e1) rr r2).originalCalls = 1 ∧
        (seqPhase1 st (.err e1) rr r2).refreshCalls = 1) ∧
    (∀ (st : Store) (c : Bool) (d : JVal),
        logoutMutation st c (.ok d) = (⟨none, none⟩, true)) ∧
    (∀ (st : Store) (c : Bool) (e : FErr), logoutMutation st c (.err e) = (st, c)) ∧
    (∀ (n : Nat) (sched : List (Fin n)), 0 < n →
        syncOk false (initState n) sched = true →
        (∀ i, enabledB (runSched false (initState n) sched) i = false) →
        (∀ i, isDoneR ((runSched false (initState n) sched).pcs i) = true) ∧
          (runSched false (initState n) sched).refreshCount = 1) := by
  refine ⟨?_, ?_, ?_, ?_⟩
  · intro st e1 rr r2 h1 hf
    cases rr with
    | ok d =>
      have hd : (JVal.jsTruthy d && isTokens d) = false := by
        simp only [refreshFailed, Bool.not_eq_true'] at hf
        exact hf
      simp [seqPhase1, h1, hd]
    | err e => simp [seqPhase1, h1]
  · intro st c d
    rfl
  · intro st c e
    rfl
  · intro n sched hn hsync hq
    exact gateInv_final _ hn (gateInv_run false (initState n) sched (gateInv_init n) hsync) hq

/-- Witness for claim C3: concrete refresh failure with a failed logout
request leaving storage untouched, a successful logout clearing it, and a
complete two-request schedule under a failing refresh making exactly one
refresh call. -/
theorem refresh_failure_logout_conditional_witness :
    (seqPhase1 ⟨some "A1", some "R1"⟩ (.err ⟨.num 401, .null, ""⟩)
        (.err ⟨.num 400, .null, ""⟩) (.ok .null)).logoutDispatched = true ∧
    logoutMutation ⟨some "A1", some "R1"⟩ false (.ok .null) = (⟨none, none⟩, true) ∧
    (runSched false (initState 2) [0, 1, 0, 1, 0, 0, 1, 1]).refreshCount = 1 := by
  refine ⟨(refresh_failure_logout_conditional.1 ⟨some "A1", some "R1"⟩ ⟨.num 401, .null, ""⟩
      (.err ⟨.num 400, .null, ""⟩) (.ok .null) rfl rfl).1,
    refresh_failure_logout_conditional.2.1 ⟨some "A1", some "R1"⟩ false .null,
    (refresh_failure_logout_conditional.2.2.2 2 [0, 1, 0, 1, 0, 0, 1, 1] (by decide)
      (by decide) (by decide)).2⟩
